import Mathlib

/-!
Verification development for the chat-parser upload pipeline
(src/app/api/messages/route.ts, the 50KB-limit variant, and src/lib/db.ts).

The TypeScript source is shallowly embedded below:
* strings are modelled as `List Char` / `String`;
* the three line regexes of `parseChatManually` are modelled by deterministic
  functions computing exactly the JavaScript backtracking-regex semantics
  (greedy character classes, `\s` as the full JS whitespace class, `.` not
  matching line terminators);
* the response sanitizer, the line-by-line key/value recovery, `JSON.parse`,
  the per-element validation and the batch insert are each modelled by a
  computable function;
* the `POST` handler is modelled by `handlePOST`, a pure function from an
  environment (configuration flags, uploaded file, the outcome each model
  candidate would produce, database failures, a clock for `new Date()`)
  to the HTTP response together with the list of side-effect events
  performed, in source order.
-/

/-- JavaScript `\s` character class (also the set trimmed by `String.prototype.trim`). -/
def isJsWs (c : Char) : Bool :=
  c == ' ' || c == '\t' || c == '\n' || c == '\u000B' || c == '\u000C' || c == '\r' ||
  c == '\u00A0' || c == '\u1680' || (0x2000 ≤ c.toNat && c.toNat ≤ 0x200A) ||
  c == '\u2028' || c == '\u2029' || c == '\u202F' || c == '\u205F' || c == '\u3000' ||
  c == '\uFEFF'

/-- JavaScript line terminators: `.` in a regex without the `s` flag matches any other character. -/
def isLineTerm (c : Char) : Bool :=
  c == '\n' || c == '\r' || c == '\u2028' || c == '\u2029'

/-- Characters matched by `.` in a JavaScript regex (no `s` flag). -/
def isDotChar (c : Char) : Bool := !isLineTerm c

/-- Remove the trailing run of JS whitespace. -/
def dropTrailingWs (l : List Char) : List Char :=
  ((l.reverse).dropWhile isJsWs).reverse

/-- JavaScript `String.prototype.trim` on a character list. -/
def jsTrim (l : List Char) : List Char :=
  dropTrailingWs (l.dropWhile isJsWs)

/-- JavaScript `String.prototype.trim`. -/
def jsTrimS (s : String) : String := String.mk (jsTrim s.data)

/-- JavaScript `String.prototype.split('\n')` on a character list.
`split` always yields at least one (possibly empty) piece. -/
def splitLines : List Char → List (List Char)
  | [] => [[]]
  | c :: rest =>
    if c = '\n' then [] :: splitLines rest
    else
      match splitLines rest with
      | [] => [[c]]
      | l :: ls => (c :: l) :: ls

/-- JavaScript UTF-16 `String.prototype.length`: astral code points count as two units. -/
def utf16Length (s : String) : Nat :=
  s.data.foldl (fun n c => n + (if 0x10000 ≤ c.toNat then 2 else 1)) 0

/-- One extracted chat record as produced by `parseChatManually` and by the
key/value recovery: three JavaScript strings. -/
structure MRecord where
  sender : String
  timestamp : String
  message : String
deriving DecidableEq, Repr

/-!
Matching the tail sub-pattern `\s*(.+)$` of the three manual-parser regexes
against the remainder `post` of a line.  JS semantics: `\s*` is greedy over
JS whitespace and backtracks; `.` refuses line terminators; `$` (no `m` flag)
matches only at the very end.  The match succeeds
* with the whole remainder after the maximal whitespace run when that
  remainder is non-empty and free of line terminators, else
* (when `post` is all whitespace) with the last whitespace character,
  provided it is matched by `.`.
-/
def matchTail (post : List Char) : Option (List Char) :=
  let q := (post.takeWhile isJsWs).length
  let tl := post.drop q
  if tl.isEmpty then
    match post.getLast? with
    | some c => if isDotChar c then some [c] else none
    | none => none
  else if tl.all isDotChar then some tl else none

/-- Matching `\s*([^:]+):\s*(.+)$` against `t` (used after the `]` of
pattern 1).  The first capture runs from the end of the greedy whitespace
run up to the first `:` (backtracking gives it the final whitespace
character when everything before the colon is whitespace); `t` must contain
a `:` with at least one character before it. -/
def matchSenderStar (t : List Char) : Option (List Char × List Char) :=
  let before := t.takeWhile (fun c => !(c == ':'))
  if before.length = t.length then none
  else if before.isEmpty then none
  else
    let post := t.drop (before.length + 1)
    let w := (before.takeWhile isJsWs).length
    let g2 := if w < before.length then before.drop w else before.drop (before.length - 1)
    match matchTail post with
    | some g3 => some (g2, g3)
    | none => none

/-- Matching `\s+([^:]+):\s*(.+)$` against `t` (the part of a pattern-2 line
after the first whitespace-free token).  `\s+` needs at least one whitespace
character; when everything before the colon is whitespace, backtracking can
surrender only down to one whitespace character, so the capture then is the
last whitespace character and the run must have length at least two. -/
def matchSenderPlus (t : List Char) : Option (List Char × List Char) :=
  match t with
  | [] => none
  | c :: _ =>
    if !isJsWs c then none
    else
      let before := t.takeWhile (fun c => !(c == ':'))
      if before.length = t.length then none
      else
        let post := t.drop (before.length + 1)
        let w := (t.takeWhile isJsWs).length
        let g2? : Option (List Char) :=
          if w < before.length then some (before.drop w)
          else if 2 ≤ w then some (before.drop (before.length - 1))
          else none
        match g2?, matchTail post with
        | some g2, some g3 => some (g2, g3)
        | _, _ => none

/-- Format 1 of `parseChatManually`: `^\[([^\]]+)\]\s*([^:]+):\s*(.+)$`.
Returns the record already `.trim()`-ed as in the source. -/
def matchP1 (t : List Char) : Option MRecord :=
  match t with
  | '[' :: rest =>
    let g1 := rest.takeWhile (fun c => !(c == ']'))
    if g1.isEmpty then none
    else if (rest.drop g1.length).isEmpty then none
    else
      match matchSenderStar (rest.drop (g1.length + 1)) with
      | some (g2, g3) =>
        some ⟨String.mk (jsTrim g2), String.mk (jsTrim g1), String.mk (jsTrim g3)⟩
      | none => none
  | _ => none

/-- Format 2 of `parseChatManually`: `^([^\s]+)\s+([^:]+):\s*(.+)$`. -/
def matchP2 (t : List Char) : Option MRecord :=
  let tok := t.takeWhile (fun c => !isJsWs c)
  if tok.isEmpty then none
  else
    match matchSenderPlus (t.drop tok.length) with
    | some (g2, g3) =>
      some ⟨String.mk (jsTrim g2), String.mk (jsTrim tok), String.mk (jsTrim g3)⟩
    | none => none

/-- Format 3 of `parseChatManually`: `^([^:]+):\s*(.+)$`; the timestamp
defaults to `"Unknown"`. -/
def matchP3 (t : List Char) : Option MRecord :=
  let before := t.takeWhile (fun c => !(c == ':'))
  if before.isEmpty then none
  else if before.length = t.length then none
  else
    match matchTail (t.drop (before.length + 1)) with
    | some g2 => some ⟨String.mk (jsTrim before), "Unknown", String.mk (jsTrim g2)⟩
    | none => none

/-- The three formats tried in source order; first match wins. -/
def parseLine (t : List Char) : Option MRecord :=
  match matchP1 t with
  | some r => some r
  | none =>
    match matchP2 t with
    | some r => some r
    | none => matchP3 t

/-- One loop iteration of `parseChatManually`: trim the line, skip it when
blank, otherwise try the three formats; a line matching none contributes
nothing. -/
def stepLine (l : List Char) : List MRecord :=
  let t := jsTrim l
  if t.isEmpty then []
  else
    match parseLine t with
    | some r => [r]
    | none => []

/-- `parseChatManually` over an already split line list. -/
def parseChatLines (ls : List (List Char)) : List MRecord :=
  ls.flatMap stepLine

/-- `parseChatManually` (route.ts lines 90-134): split on `'\n'`, process
each line. -/
def parseChatManually (content : String) : List MRecord :=
  parseChatLines (splitLines content.data)

/-! ## Response sanitizer (route.ts lines 357-384) -/

/-- `replace(/^```json\s*/ , '')` alias `replace(/^```\s*/ , '')` after the
corresponding `startsWith` check: drop the fence tag of the given length and
the following whitespace run. -/
def stripOpenFence (tagLen : Nat) (l : List Char) : List Char :=
  (l.drop tagLen).dropWhile isJsWs

/-- `replace(/\s*```$/ , '')`: when the text ends in three backticks, remove
them together with the maximal whitespace run in front of them; otherwise
the regex cannot match and the text is unchanged. -/
def stripCloseFence (l : List Char) : List Char :=
  if (['`', '`', '`'] : List Char).isSuffixOf l then dropTrailingWs (l.take (l.length - 3))
  else l

/-- `match(/\[[\s\S]*\]/)`: the span from the first `[` to the last `]`,
when the last `]` lies strictly after the first `[`. -/
def bracketSpan (s : List Char) : Option (List Char) :=
  let i := (s.takeWhile (fun c => !(c == '['))).length
  let rj := (s.reverse.takeWhile (fun c => !(c == ']'))).length
  if i = s.length then none
  else if rj = s.length then none
  else
    let j := s.length - 1 - rj
    if i < j then some ((s.drop i).take (j - i + 1)) else none

/-- The response sanitizer: trim, strip code fences, extract the bracket
span, strip leading text before the first `{`/`[` and trailing text after
the last `}`/`]`, trim. -/
def sanitizeResponse (s : List Char) : List Char :=
  let c0 := jsTrim s
  let c1 :=
    if (['`', '`', '`', 'j', 's', 'o', 'n'] : List Char).isPrefixOf c0 then
      stripCloseFence (stripOpenFence 7 c0)
    else if (['`', '`', '`'] : List Char).isPrefixOf c0 then
      stripCloseFence (stripOpenFence 3 c0)
    else c0
  let c2 := jsTrim c1
  let c3 :=
    match bracketSpan c2 with
    | some sp => sp
    | none => c2
  let c4 := c3.dropWhile (fun c => !(c == '{') && !(c == '['))
  let c5 := ((c4.reverse).dropWhile (fun c => !(c == '}') && !(c == ']'))).reverse
  jsTrim c5

/-! ## Line-by-line key/value recovery (route.ts lines 402-435) -/

/-- JavaScript `String.prototype.includes`: substring search. -/
def containsSub (pat : List Char) : List Char → Bool
  | [] => pat.isEmpty
  | c :: rest => pat.isPrefixOf (c :: rest) || containsSub pat rest

/-- Attempt the regex `/"<key>":\s*"([^"]*)"/` anchored at the start of `s`:
the literal quoted key and colon, a whitespace run, an opening quote and a
capture of non-quote characters up to a closing quote that must exist. -/
def kvHere (key : List Char) (s : List Char) : Option (List Char) :=
  let pat := '"' :: (key ++ ['"', ':'])
  if pat.isPrefixOf s then
    let after := (s.drop pat.length).dropWhile isJsWs
    match after with
    | '"' :: body =>
      let g := body.takeWhile (fun c => !(c == '"'))
      if g.length < body.length then some g else none
    | _ => none
  else none

/-- Unanchored leftmost search for `/"<key>":\s*"([^"]*)"/`. -/
def kvScan (key : List Char) : List Char → Option (List Char)
  | [] => none
  | c :: rest =>
    match kvHere key (c :: rest) with
    | some g => some g
    | none => kvScan key rest

/-- One line of the fallback JSON construction: if the trimmed line mentions
`sender`, `timestamp` or `message` and at least one quoted key/value pair is
present, assemble a record, defaulting missing keys to `"Unknown"`/empty. -/
def recoverLine (l : List Char) : List MRecord :=
  let t := jsTrim l
  if t.isEmpty then []
  else if containsSub ['s', 'e', 'n', 'd', 'e', 'r'] t
       || containsSub ['t', 'i', 'm', 'e', 's', 't', 'a', 'm', 'p'] t
       || containsSub ['m', 'e', 's', 's', 'a', 'g', 'e'] t then
    let sM := kvScan ['s', 'e', 'n', 'd', 'e', 'r'] t
    let tM := kvScan ['t', 'i', 'm', 'e', 's', 't', 'a', 'm', 'p'] t
    let mM := kvScan ['m', 'e', 's', 's', 'a', 'g', 'e'] t
    if sM.isSome || tM.isSome || mM.isSome then
      [⟨String.mk (sM.getD "Unknown".data),
        String.mk (tM.getD "Unknown".data),
        String.mk (mM.getD [])⟩]
    else []
  else []

/-- The whole fallback JSON construction over the raw model response. -/
def recoverFromLines (s : List Char) : List MRecord :=
  (splitLines s).flatMap recoverLine

/-! ## JavaScript values and `JSON.parse` -/

/-- JavaScript values as far as the pipeline observes them.  `undef` is the
result of reading an absent property; `JSON.parse` itself never produces it.
A number keeps its raw source token. -/
inductive JsValue where
  | undef
  | null
  | bool (b : Bool)
  | num (raw : String)
  | str (s : String)
  | arr (elems : List JsValue)
  | obj (fields : List (String × JsValue))

/-!
Decidable equality for `JsValue`, via a structurally recursive boolean
comparison (the automatic derivation does not handle the nested lists).
-/

mutual

def beqJsValue : JsValue → JsValue → Bool
  | JsValue.undef, JsValue.undef => true
  | JsValue.null, JsValue.null => true
  | JsValue.bool a, JsValue.bool b => a == b
  | JsValue.num a, JsValue.num b => a == b
  | JsValue.str a, JsValue.str b => a == b
  | JsValue.arr xs, JsValue.arr ys => beqJsList xs ys
  | JsValue.obj xs, JsValue.obj ys => beqJsFields xs ys
  | _, _ => false

def beqJsList : List JsValue → List JsValue → Bool
  | [], [] => true
  | x :: xs, y :: ys => beqJsValue x y && beqJsList xs ys
  | _, _ => false

def beqJsFields : List (String × JsValue) → List (String × JsValue) → Bool
  | [], [] => true
  | (k1, v1) :: xs, (k2, v2) :: ys => k1 == k2 && beqJsValue v1 v2 && beqJsFields xs ys
  | _, _ => false

end

mutual

theorem eq_of_beqJsValue : ∀ a b, beqJsValue a b = true → a = b
  | JsValue.undef, JsValue.undef, _ => rfl
  | JsValue.null, JsValue.null, _ => rfl
  | JsValue.bool a, JsValue.bool b, h => by
    have : a = b := by simpa [beqJsValue] using h
    rw [this]
  | JsValue.num a, JsValue.num b, h => by
    have : a = b := by simpa [beqJsValue] using h
    rw [this]
  | JsValue.str a, JsValue.str b, h => by
    have : a = b := by simpa [beqJsValue] using h
    rw [this]
  | JsValue.arr xs, JsValue.arr ys, h => by
    have : xs = ys := eq_of_beqJsList xs ys (by simpa [beqJsValue] using h)
    rw [this]
  | JsValue.obj xs, JsValue.obj ys, h => by
    have : xs = ys := eq_of_beqJsFields xs ys (by simpa [beqJsValue] using h)
    rw [this]

theorem eq_of_beqJsList : ∀ xs ys, beqJsList xs ys = true → xs = ys
  | [], [], _ => rfl
  | x :: xs, y :: ys, h => by
    have h2 := h
    simp only [beqJsList, Bool.and_eq_true] at h2
    rw [eq_of_beqJsValue x y h2.1, eq_of_beqJsList xs ys h2.2]

theorem eq_of_beqJsFields : ∀ xs ys, beqJsFields xs ys = true → xs = ys
  | [], [], _ => rfl
  | (k1, v1) :: xs, (k2, v2) :: ys, h => by
    have h2 := h
    simp only [beqJsFields, Bool.and_eq_true, beq_iff_eq] at h2
    rw [h2.1.1, eq_of_beqJsValue v1 v2 h2.1.2, eq_of_beqJsFields xs ys h2.2]

end

mutual

theorem beqJsValue_refl : ∀ a, beqJsValue a a = true
  | JsValue.undef => rfl
  | JsValue.null => rfl
  | JsValue.bool a => by simp [beqJsValue]
  | JsValue.num a => by simp [beqJsValue]
  | JsValue.str a => by simp [beqJsValue]
  | JsValue.arr xs => by simpa [beqJsValue] using beqJsList_refl xs
  | JsValue.obj xs => by simpa [beqJsValue] using beqJsFields_refl xs

theorem beqJsList_refl : ∀ xs, beqJsList xs xs = true
  | [] => rfl
  | x :: xs => by
    simp only [beqJsList, Bool.and_eq_true]
    exact ⟨beqJsValue_refl x, beqJsList_refl xs⟩

theorem beqJsFields_refl : ∀ xs, beqJsFields xs xs = true
  | [] => rfl
  | (k, v) :: xs => by
    simp only [beqJsFields, Bool.and_eq_true, beq_iff_eq]
    exact ⟨⟨trivial, beqJsValue_refl v⟩, beqJsFields_refl xs⟩

end

instance : DecidableEq JsValue := fun a b =>
  if h : beqJsValue a b = true then isTrue (eq_of_beqJsValue a b h)
  else isFalse (fun hh => h (hh ▸ beqJsValue_refl a))

/-- Truthiness of a JSON number token: zero iff every mantissa digit is `0`.
(The IEEE underflow of astronomically small exponents to `0` is not
modelled; no pipeline value depends on numeric truthiness.) -/
def numTruthy (raw : String) : Bool :=
  (raw.data.takeWhile (fun c => !(c == 'e') && !(c == 'E'))).any
    (fun c => c.isDigit && !(c == '0'))

/-- JavaScript truthiness. -/
def jsTruthy : JsValue → Bool
  | JsValue.undef => false
  | JsValue.null => false
  | JsValue.bool b => b
  | JsValue.num raw => numTruthy raw
  | JsValue.str s => !(s == "")
  | JsValue.arr _ => true
  | JsValue.obj _ => true

/-- JavaScript `typeof`. -/
def jsTypeof : JsValue → String
  | JsValue.undef => "undefined"
  | JsValue.null => "object"
  | JsValue.bool _ => "boolean"
  | JsValue.num _ => "number"
  | JsValue.str _ => "string"
  | JsValue.arr _ => "object"
  | JsValue.obj _ => "object"

/-- Property read on an object built by `JSON.parse`: with duplicate keys the
later assignment wins, as in a JavaScript object literal. -/
def lookupField (fields : List (String × JsValue)) (k : String) : JsValue :=
  fields.foldl (fun acc p => if p.1 == k then p.2 else acc) JsValue.undef

/-- JavaScript property read `v[k]` for the values the pipeline reads
(arrays and non-objects have no `sender`/`timestamp`/`message` property). -/
def jsGet (v : JsValue) (k : String) : JsValue :=
  match v with
  | JsValue.obj fields => lookupField fields k
  | _ => JsValue.undef

/-- JavaScript `a || b`. -/
def jsOr (v d : JsValue) : JsValue := if jsTruthy v then v else d

/-- JSON whitespace (as accepted by `JSON.parse`, narrower than `\s`). -/
def skipJsonWs (s : List Char) : List Char :=
  s.dropWhile (fun c => c == ' ' || c == '\t' || c == '\n' || c == '\r')

/-- Value of a hexadecimal digit. -/
def hexVal (c : Char) : Option Nat :=
  if 48 ≤ c.toNat && c.toNat ≤ 57 then some (c.toNat - 48)
  else if 97 ≤ c.toNat && c.toNat ≤ 102 then some (c.toNat - 87)
  else if 65 ≤ c.toNat && c.toNat ≤ 70 then some (c.toNat - 55)
  else none

/-- Translation of a JSON string escape character. -/
def escCharFor (c : Char) : Option Char :=
  if c = '"' then some '"'
  else if c = '\\' then some '\\'
  else if c = '/' then some '/'
  else if c = 'b' then some '\u0008'
  else if c = 'f' then some '\u000C'
  else if c = 'n' then some '\n'
  else if c = 'r' then some '\r'
  else if c = 't' then some '\t'
  else none

/-- Body of a JSON string after the opening quote: content plus the rest
after the closing quote.  Raw control characters are rejected.  (`\uXXXX`
uses the code point directly; unpaired surrogates are not modelled.) -/
def parseStringRest : Nat → List Char → Option (List Char × List Char)
  | 0, _ => none
  | fuel + 1, s =>
    match s with
    | [] => none
    | '"' :: rest => some ([], rest)
    | '\\' :: esc =>
      match esc with
      | 'u' :: h1 :: h2 :: h3 :: h4 :: rest =>
        match hexVal h1, hexVal h2, hexVal h3, hexVal h4 with
        | some a, some b, some c, some d =>
          (parseStringRest fuel rest).map
            (fun p => (Char.ofNat (((a * 16 + b) * 16 + c) * 16 + d) :: p.1, p.2))
        | _, _, _, _ => none
      | c :: rest =>
        match escCharFor c with
        | some e => (parseStringRest fuel rest).map (fun p => (e :: p.1, p.2))
        | none => none
      | [] => none
    | c :: rest =>
      if c.toNat < 0x20 then none
      else (parseStringRest fuel rest).map (fun p => (c :: p.1, p.2))

/-- Optional fraction part `.digits` of a JSON number; consumes nothing when
absent or ill-formed (an ill-formed tail then fails in the caller). -/
def parseFrac (s : List Char) : List Char × List Char :=
  match s with
  | '.' :: r =>
    let ds := r.takeWhile Char.isDigit
    if ds.isEmpty then ([], s) else ('.' :: ds, r.drop ds.length)
  | _ => ([], s)

/-- Optional exponent part of a JSON number. -/
def parseExpPart (s : List Char) : List Char × List Char :=
  match s with
  | c :: r =>
    if c = 'e' ∨ c = 'E' then
      match r with
      | c2 :: rr =>
        if c2 = '+' ∨ c2 = '-' then
          let ds := rr.takeWhile Char.isDigit
          if ds.isEmpty then ([], s) else (c :: c2 :: ds, rr.drop ds.length)
        else
          let ds := r.takeWhile Char.isDigit
          if ds.isEmpty then ([], s) else (c :: ds, r.drop ds.length)
      | [] => ([], s)
    else ([], s)
  | [] => ([], s)

/-- A JSON number token `-?(0|[1-9][0-9]*)(.digits)?(exponent)?`. -/
def parseNumberTok (s : List Char) : Option (List Char × List Char) :=
  let p : List Char × List Char :=
    match s with
    | '-' :: r => (['-'], r)
    | _ => ([], s)
  match p.2 with
  | [] => none
  | c :: r =>
    if c = '0' then
      let f := parseFrac r
      let e := parseExpPart f.2
      some (p.1 ++ '0' :: (f.1 ++ e.1), e.2)
    else if c.isDigit then
      let ds := r.takeWhile Char.isDigit
      let f := parseFrac (r.drop ds.length)
      let e := parseExpPart f.2
      some (p.1 ++ c :: (ds ++ f.1 ++ e.1), e.2)
    else none

mutual

/-- One JSON value starting at the head of `s` (no leading whitespace). -/
def parseVal : Nat → List Char → Option (JsValue × List Char)
  | 0, _ => none
  | fuel + 1, s =>
    match s with
    | 'n' :: 'u' :: 'l' :: 'l' :: r => some (JsValue.null, r)
    | 't' :: 'r' :: 'u' :: 'e' :: r => some (JsValue.bool true, r)
    | 'f' :: 'a' :: 'l' :: 's' :: 'e' :: r => some (JsValue.bool false, r)
    | '"' :: r =>
      match parseStringRest (r.length + 1) r with
      | some (cs, rest) => some (JsValue.str (String.mk cs), rest)
      | none => none
    | '[' :: r =>
      match skipJsonWs r with
      | ']' :: rest => some (JsValue.arr [], rest)
      | r2 =>
        match parseItems fuel r2 with
        | some (vs, rest) => some (JsValue.arr vs, rest)
        | none => none
    | '{' :: r =>
      match skipJsonWs r with
      | '}' :: rest => some (JsValue.obj [], rest)
      | r2 =>
        match parseMembers fuel r2 with
        | some (fs, rest) => some (JsValue.obj fs, rest)
        | none => none
    | _ =>
      match parseNumberTok s with
      | some (tok, rest) => some (JsValue.num (String.mk tok), rest)
      | none => none

/-- Comma-separated array elements up to the closing `]`. -/
def parseItems : Nat → List Char → Option (List JsValue × List Char)
  | 0, _ => none
  | fuel + 1, s =>
    match parseVal fuel s with
    | none => none
    | some (v, rest) =>
      match skipJsonWs rest with
      | ',' :: r2 =>
        match parseItems fuel (skipJsonWs r2) with
        | some (vs, rest2) => some (v :: vs, rest2)
        | none => none
      | ']' :: r2 => some ([v], r2)
      | _ => none

/-- Comma-separated object members up to the closing brace. -/
def parseMembers : Nat → List Char → Option (List (String × JsValue) × List Char)
  | 0, _ => none
  | fuel + 1, s =>
    match s with
    | '"' :: r =>
      match parseStringRest (r.length + 1) r with
      | none => none
      | some (key, rest) =>
        match skipJsonWs rest with
        | ':' :: r2 =>
          match parseVal fuel (skipJsonWs r2) with
          | none => none
          | some (v, rest2) =>
            match skipJsonWs rest2 with
            | ',' :: r3 =>
              match parseMembers fuel (skipJsonWs r3) with
              | some (fs, rest3) => some ((String.mk key, v) :: fs, rest3)
              | none => none
            | '}' :: r3 => some ([(String.mk key, v)], r3)
            | _ => none
        | _ => none
    | _ => none

end

/-- `JSON.parse`: a single value with surrounding whitespace and nothing
else.  The fuel bound dominates the number of parser steps. -/
def jsonParse (s : List Char) : Option JsValue :=
  match parseVal (2 * s.length + 4) (skipJsonWs s) with
  | some (v, rest) => if (skipJsonWs rest).isEmpty then some v else none
  | none => none

/-! ## Record validation and normalization (route.ts lines 438-454) -/

/-- A validated message as built by the `.map` at lines 444-454: the three
field reads with their `|| default` fallbacks applied. -/
structure VRecord where
  sender : JsValue
  timestamp : JsValue
  message : JsValue
deriving DecidableEq

/-- A manual-parser record as a JavaScript value entering validation or
persistence: three string fields. -/
def mrecordToV (m : MRecord) : VRecord :=
  ⟨JsValue.str m.sender, JsValue.str m.timestamp, JsValue.str m.message⟩

/-- A recovery record as the object literal pushed at lines 417-421. -/
def mrecordToJs (m : MRecord) : JsValue :=
  JsValue.obj
    [("sender", JsValue.str m.sender),
     ("timestamp", JsValue.str m.timestamp),
     ("message", JsValue.str m.message)]

/-- The per-element guard `!(!msg || typeof msg !== 'object')`. -/
def elementOk (v : JsValue) : Bool :=
  jsTruthy v && (jsTypeof v == "object")

/-- Normalization of one accepted element: `sender`/`timestamp` default to
`"Unknown"` when falsy, `message` to the empty string. -/
def normalizeMsg (v : JsValue) : VRecord :=
  ⟨jsOr (jsGet v "sender") (JsValue.str "Unknown"),
   jsOr (jsGet v "timestamp") (JsValue.str "Unknown"),
   jsOr (jsGet v "message") (JsValue.str "")⟩

/-- The `.map((msg, index) => ...)` with its `throw` on the first bad
element, starting at index `i`. -/
def validateElems : Nat → List JsValue → Except String (List VRecord)
  | _, [] => Except.ok []
  | i, v :: rest =>
    if elementOk v then
      match validateElems (i + 1) rest with
      | Except.ok rs => Except.ok (normalizeMsg v :: rs)
      | Except.error m => Except.error m
    else Except.error ("Invalid message at index " ++ toString i)

/-- Validation of the parsed response: must be an array, each element a
truthy object, each element normalized. -/
def validateMessages : JsValue → Except String (List VRecord)
  | JsValue.arr xs => validateElems 0 xs
  | _ => Except.error "Expected an array of messages"

/-! ## Persistence (db.ts lines 57-77) -/

/-- A document as stored by `insertChatMessages`: the record fields plus the
`created_at` stamp taken from `new Date()` during the `map`.  (The opaque
store-assigned `_id` is not modelled.) -/
structure PersistedRecord where
  sender : JsValue
  timestamp : JsValue
  message : JsValue
  created_at : Nat
deriving DecidableEq

/-- The `messages.map(msg => ({...msg, created_at: new Date()}))`: the k-th
callback invocation reads the clock at tick `i + k`. -/
def stampFrom (clock : Nat → Nat) : Nat → List VRecord → List PersistedRecord
  | _, [] => []
  | i, m :: rest =>
    ⟨m.sender, m.timestamp, m.message, clock i⟩ :: stampFrom clock (i + 1) rest

/-- `insertChatMessages`: stamp each record with the current time, insert,
and return the inserted documents in batch order. -/
def insertChatMessages (clock : Nat → Nat) (msgs : List VRecord) : List PersistedRecord :=
  stampFrom clock 0 msgs

/-! ## The POST handler (route.ts lines 140-476) -/

/-- A JavaScript `Error` as far as the handler inspects it. -/
structure JsError where
  name : String
  message : String
deriving DecidableEq, Repr

/-- Outcome of one model attempt: either the completion succeeds and yields
`choices[0]?.message?.content` (which may be absent), or it throws. -/
inductive ModelOutcome where
  | success (content : Option String)
  | failure (e : JsError)
deriving DecidableEq

/-- The uploaded form file: name, byte size, text content. -/
structure UploadFile where
  name : String
  size : Nat
  content : String

/-- Environment of one request: configuration, form data, what each of the
three model candidates would return, whether the database calls throw, and
the wall clock sampled at successive `new Date()` calls. -/
structure Env where
  openaiKeyConfigured : Bool
  mongoUriConfigured : Bool
  file : Option UploadFile
  modelOutcome1 : ModelOutcome
  modelOutcome2 : ModelOutcome
  modelOutcome3 : ModelOutcome
  createErr : Option JsError
  insertErr : Option JsError
  clock : Nat → Nat

/-- Observable side-effect events of the handler, in execution order. -/
inductive Event where
  | readFile
  | dbCreate
  | modelAttempt (i : Nat)
  | manualParse
  | sanitizeStage
  | jsonParseStage
  | recoverStage
  | dbInsert
deriving DecidableEq, Repr

/-- The handler's observable HTTP result: a success body
`{success, message, data, fallback?}` or an error body `{error}` with its
status. -/
inductive HttpResponse where
  | ok (message : String) (data : List PersistedRecord) (fallback : Bool)
  | err (status : Nat) (message : String)
deriving DecidableEq

/-- JavaScript truthiness of `responseText : string | undefined`. -/
def truthyStr : Option String → Bool
  | some s => !(s == "")
  | none => false

/-- The `for (const model of models)` loop: on a thrown error record it as
`lastError` and continue; on a returned completion store the content and
stop as soon as it is non-empty.  Returns the final `responseText`,
`lastError`, and the number of candidates attempted. -/
def runModelLoop : List ModelOutcome → Option String → Option JsError →
    Option String × Option JsError × Nat
  | [], rt, le => (rt, le, 0)
  | o :: rest, rt, le =>
    match o with
    | ModelOutcome.success c =>
      if truthyStr c then (c, le, 1)
      else
        let r := runModelLoop rest c le
        (r.1, r.2.1, r.2.2 + 1)
    | ModelOutcome.failure e =>
      let r := runModelLoop rest rt (some e)
      (r.1, r.2.1, r.2.2 + 1)

/-- The model-attempt events for the first `n` candidates. -/
def attemptEvents (n : Nat) : List Event :=
  (List.range n).map Event.modelAttempt

/-- Lines 343-346: the error thrown when no text was produced and the
manual fallback did not return. -/
def allModelsFailed (le : Option JsError) : HttpResponse :=
  match le with
  | some e =>
    if e.name == "AbortError" then
      HttpResponse.err 500
        "Request timeout - file processing took too long. Please try with a smaller file."
    else
      HttpResponse.err 500 ("All models failed. Last error: " ++ e.message)
  | none => HttpResponse.err 500 ("All models failed. Last error: Unknown error")

/-- Lines 390-400: the diagnostic message for an unparseable response. -/
def parseErrorMessage (raw : String) : String :=
  let base := "Invalid JSON response from OpenAI."
  let diag :=
    if containsSub ['`', '`', '`'] raw.data then
      " The response appears to contain markdown formatting that could not be parsed."
    else if !(containsSub ['['] raw.data) || !(containsSub [']'] raw.data) then
      " The response does not appear to contain a JSON array."
    else " The JSON structure is malformed."
  base ++ diag ++ " Raw response preview: " ++ String.mk (raw.data.take 300) ++ "..."

/-- `file.name.endsWith('.txt')`. -/
def endsWithTxt (name : String) : Bool :=
  (['.', 't', 'x', 't'] : List Char).isSuffixOf name.data

/-- The final `responseText` as a string (it is only read when truthy). -/
def optText : Option String → String
  | some s => s
  | none => ""

/-- The model loop as invoked by the handler. -/
def modelLoopOf (env : Env) : Option String × Option JsError × Nat :=
  runModelLoop [env.modelOutcome1, env.modelOutcome2, env.modelOutcome3] none none

/-- Lines 438-463: validate the parsed value, insert, and answer; a thrown
validation or insertion error is caught by the outer handler as a 500. -/
def finishValidated (insErr : Option JsError) (clock : Nat → Nat) (parsed : JsValue)
    (events : List Event) : HttpResponse × List Event :=
  match validateMessages parsed with
  | Except.error m => (HttpResponse.err 500 m, events)
  | Except.ok vrecs =>
    match insErr with
    | some e => (HttpResponse.err 500 e.message, events ++ [Event.dbInsert])
    | none =>
      (HttpResponse.ok
         ("Successfully processed " ++ toString (insertChatMessages clock vrecs).length ++
          " messages")
         (insertChatMessages clock vrecs) false,
       events ++ [Event.dbInsert])

/-- The POST handler, lines 140-476 of route.ts: configuration checks, file
validations, the model loop, the manual fallback, sanitization, JSON parse,
key/value recovery, validation, insertion. -/
def handlePOST (env : Env) : HttpResponse × List Event :=
  if !env.openaiKeyConfigured then
    (HttpResponse.err 500 "OpenAI API key not configured", [])
  else if !env.mongoUriConfigured then
    (HttpResponse.err 500 "Database connection not configured", [])
  else
    match env.file with
    | none => (HttpResponse.err 400 "No file uploaded", [])
    | some file =>
      if 4 * 1024 * 1024 < file.size then
        (HttpResponse.err 400 "File size too large. Maximum size is 4MB.", [])
      else if !endsWithTxt file.name then
        (HttpResponse.err 400 "Only .txt files are allowed", [])
      else if jsTrimS file.content = "" then
        (HttpResponse.err 400 "File is empty", [Event.readFile])
      else if 50000 < utf16Length file.content then
        (HttpResponse.err 400 "File content too large. Please use a smaller file (max 50KB).",
         [Event.readFile])
      else
        match env.createErr with
        | some e => (HttpResponse.err 500 e.message, [Event.readFile, Event.dbCreate])
        | none =>
          if !truthyStr (modelLoopOf env).1 then
            if 0 < (parseChatManually file.content).length then
              match env.insertErr with
              | some _ =>
                (allModelsFailed (modelLoopOf env).2.1,
                 Event.readFile :: Event.dbCreate :: attemptEvents (modelLoopOf env).2.2 ++
                   [Event.manualParse, Event.dbInsert])
              | none =>
                (HttpResponse.ok
                   ("Successfully processed " ++
                    toString (insertChatMessages env.clock
                      ((parseChatManually file.content).map mrecordToV)).length ++
                    " messages using fallback parsing")
                   (insertChatMessages env.clock ((parseChatManually file.content).map mrecordToV))
                   true,
                 Event.readFile :: Event.dbCreate :: attemptEvents (modelLoopOf env).2.2 ++
                   [Event.manualParse, Event.dbInsert])
            else
              (allModelsFailed (modelLoopOf env).2.1,
               Event.readFile :: Event.dbCreate :: attemptEvents (modelLoopOf env).2.2 ++
                 [Event.manualParse])
          else
            match jsonParse (sanitizeResponse (optText (modelLoopOf env).1).data) with
            | some parsed =>
              finishValidated env.insertErr env.clock parsed
                (Event.readFile :: Event.dbCreate :: attemptEvents (modelLoopOf env).2.2 ++
                 [Event.sanitizeStage, Event.jsonParseStage])
            | none =>
              if 0 < (recoverFromLines (optText (modelLoopOf env).1).data).length then
                finishValidated env.insertErr env.clock
                  (JsValue.arr ((recoverFromLines (optText (modelLoopOf env).1).data).map
                    mrecordToJs))
                  (Event.readFile :: Event.dbCreate :: attemptEvents (modelLoopOf env).2.2 ++
                   [Event.sanitizeStage, Event.jsonParseStage, Event.recoverStage])
              else
                (HttpResponse.err 500 (parseErrorMessage (optText (modelLoopOf env).1)),
                 Event.readFile :: Event.dbCreate :: attemptEvents (modelLoopOf env).2.2 ++
                   [Event.sanitizeStage, Event.jsonParseStage, Event.recoverStage])

/-! ## Helper lemmas -/

/-- The default-or-value of a field read is never `undefined`. -/
theorem jsOr_str_ne_undef (v : JsValue) (s : String) :
    jsOr v (JsValue.str s) ≠ JsValue.undef := by
  unfold jsOr
  split
  · next hcond =>
    intro h
    rw [h] at hcond
    simp [jsTruthy] at hcond
  · exact fun h => JsValue.noConfusion h

/-- Every record surviving `validateElems` has defined fields. -/
theorem validateElems_defined :
    ∀ (xs : List JsValue) (i : Nat) (rs : List VRecord),
      validateElems i xs = Except.ok rs →
      ∀ r ∈ rs, r.sender ≠ JsValue.undef ∧ r.timestamp ≠ JsValue.undef ∧
        r.message ≠ JsValue.undef := by
  intro xs
  induction xs with
  | nil =>
    intro i rs h r hr
    simp [validateElems] at h
    subst h
    simp at hr
  | cons v rest ih =>
    intro i rs h r hr
    unfold validateElems at h
    split at h
    · revert h
      split
      · next rs' hrs' =>
        intro h
        injection h with h
        subst h
        rcases List.mem_cons.mp hr with hr | hr
        · subst hr
          exact ⟨jsOr_str_ne_undef _ _, jsOr_str_ne_undef _ _, jsOr_str_ne_undef _ _⟩
        · exact ih (i + 1) rs' hrs' r hr
      · intro h; exact Except.noConfusion h
    · exact Except.noConfusion h

/-- Length of the stamped batch. -/
theorem stampFrom_length (clock : Nat → Nat) :
    ∀ (msgs : List VRecord) (i : Nat), (stampFrom clock i msgs).length = msgs.length := by
  intro msgs
  induction msgs with
  | nil => intro i; rfl
  | cons m rest ih => intro i; simp [stampFrom, ih (i + 1)]

/-- Element k of the stamped batch: the k-th record with the clock sampled
at tick i + k. -/
theorem stampFrom_getElem? (clock : Nat → Nat) :
    ∀ (msgs : List VRecord) (i k : Nat),
      (stampFrom clock i msgs)[k]? =
        (msgs[k]?).map (fun m => ⟨m.sender, m.timestamp, m.message, clock (i + k)⟩) := by
  intro msgs
  induction msgs with
  | nil => intro i k; simp [stampFrom]
  | cons m rest ih =>
    intro i k
    cases k with
    | zero => simp [stampFrom]
    | succ k =>
      simp only [stampFrom, List.getElem?_cons_succ, ih (i + 1) k]
      have : i + 1 + k = i + (k + 1) := by omega
      rw [this]

/-- Members of the stamped batch carry the fields of some input record. -/
theorem stampFrom_mem (clock : Nat → Nat) :
    ∀ (msgs : List VRecord) (i : Nat) (r : PersistedRecord),
      r ∈ stampFrom clock i msgs →
      ∃ m ∈ msgs, r.sender = m.sender ∧ r.timestamp = m.timestamp ∧
        r.message = m.message := by
  intro msgs
  induction msgs with
  | nil => intro i r hr; simp [stampFrom] at hr
  | cons m rest ih =>
    intro i r hr
    rcases List.mem_cons.mp hr with hr | hr
    · exact ⟨m, List.mem_cons_self m rest, by simp [hr]⟩
    · obtain ⟨m', hm', hfields⟩ := ih (i + 1) r hr
      exact ⟨m', List.mem_cons_of_mem m hm', hfields⟩

/-- `sanitizeStage` is not among the model-attempt events. -/
theorem sanitize_not_attempt (n : Nat) : Event.sanitizeStage ∉ attemptEvents n := by
  simp [attemptEvents]

/-- `jsonParseStage` is not among the model-attempt events. -/
theorem jsonParse_not_attempt (n : Nat) : Event.jsonParseStage ∉ attemptEvents n := by
  simp [attemptEvents]

/-- A last-`]` decomposition from `getLast?`. -/
theorem exists_concat_of_getLast? :
    ∀ (l : List Char) (c : Char), l.getLast? = some c → ∃ m, l = m ++ [c] := by
  intro l
  induction l with
  | nil => intro c h; simp at h
  | cons a t ih =>
    intro c h
    cases t with
    | nil =>
      simp [List.getLast?] at h
      exact ⟨[], by simp [h]⟩
    | cons b u =>
      have h' : (b :: u).getLast? = some c := by
        rwa [List.getLast?_cons_cons] at h
      obtain ⟨m, hm⟩ := ih c h'
      exact ⟨a :: m, by simp [hm]⟩

/-! ## Claim C4 -/

/-- Claim C4: the Manual Line Parser applies its three patterns in strict
priority order with first match winning.  The line `[10:00] Alice: hi`
matches both pattern 1 and pattern 3, and pattern 1 wins with timestamp
`10:00`, sender `Alice`, message `hi`; and a trimmed line matching none of
the three patterns produces no record and no error. -/
theorem claim_manual_parser_priority :
    parseChatManually "[10:00] Alice: hi" = [⟨"Alice", "10:00", "hi"⟩]
    ∧ matchP3 (jsTrim "[10:00] Alice: hi".data) =
        some ⟨"[10", "Unknown", "00] Alice: hi"⟩
    ∧ (∀ (t : List Char) (r : MRecord), matchP1 t = some r → parseLine t = some r)
    ∧ (∀ (l : List Char) (rest : List (List Char)),
        matchP1 (jsTrim l) = none → matchP2 (jsTrim l) = none →
        matchP3 (jsTrim l) = none →
        parseChatLines (l :: rest) = parseChatLines rest) := by
  refine ⟨by decide, by decide, ?_, ?_⟩
  · intro t r h
    simp [parseLine, h]
  · intro l rest h1 h2 h3
    have hstep : stepLine l = [] := by
      by_cases hE : (jsTrim l).isEmpty
      · simp [stepLine, hE]
      · simp [stepLine, hE, parseLine, h1, h2, h3]
    simp [parseChatLines, hstep]

/-- Witness for C4 at concrete inputs: applying the priority part to the
line itself and the dropped-line part to a patternless line. -/
theorem claim_manual_parser_priority_witness :
    parseLine "[10:00] Alice: hi".data = some ⟨"Alice", "10:00", "hi"⟩
    ∧ parseChatLines ["just words".data] = parseChatLines [] :=
  ⟨claim_manual_parser_priority.2.2.1 _ _ (by decide),
   claim_manual_parser_priority.2.2.2 _ _ (by decide) (by decide) (by decide)⟩

/-! ## Claim C5 -/

/-- Claim C5: a parsed result that is not an array fails with the error
`Expected an array of messages`; an element failing the object guard fails
with an error naming its index; surviving elements are normalized with
falsy `sender`/`timestamp` becoming `Unknown` and falsy `message` becoming
the empty string; in particular a record with empty sender and null
timestamp normalizes as claimed. -/
theorem claim_validation_normalization :
    (∀ v : JsValue, (∀ xs, v ≠ JsValue.arr xs) →
      validateMessages v = Except.error "Expected an array of messages")
    ∧ (∀ (pre : List JsValue) (x : JsValue) (post : List JsValue),
        (∀ y ∈ pre, elementOk y = true) → elementOk x = false →
        validateMessages (JsValue.arr (pre ++ x :: post)) =
          Except.error ("Invalid message at index " ++ toString pre.length))
    ∧ (∀ v : JsValue, jsTruthy (jsGet v "sender") = false →
        (normalizeMsg v).sender = JsValue.str "Unknown")
    ∧ (∀ v : JsValue, jsTruthy (jsGet v "timestamp") = false →
        (normalizeMsg v).timestamp = JsValue.str "Unknown")
    ∧ (∀ v : JsValue, jsTruthy (jsGet v "message") = false →
        (normalizeMsg v).message = JsValue.str "")
    ∧ validateMessages (JsValue.arr
        [JsValue.obj [("sender", JsValue.str ""), ("timestamp", JsValue.null),
          ("message", JsValue.str "hi")]]) =
        Except.ok [⟨JsValue.str "Unknown", JsValue.str "Unknown", JsValue.str "hi"⟩] := by
  have herr : ∀ (pre : List JsValue) (i : Nat) (x : JsValue) (post : List JsValue),
      (∀ y ∈ pre, elementOk y = true) → elementOk x = false →
      validateElems i (pre ++ x :: post) =
        Except.error ("Invalid message at index " ++ toString (i + pre.length)) := by
    intro pre
    induction pre with
    | nil =>
      intro i x post _ hx
      simp [validateElems, hx]
    | cons y pre ih =>
      intro i x post hpre hx
      have hy : elementOk y = true := hpre y (List.mem_cons_self y pre)
      have hrest := ih (i + 1) x post (fun z hz => hpre z (List.mem_cons_of_mem y hz)) hx
      have harith : i + 1 + pre.length = i + (y :: pre).length := by
        simp only [List.length_cons]
        omega
      rw [List.cons_append]
      show (if elementOk y = true then
              match validateElems (i + 1) (pre ++ x :: post) with
              | Except.ok rs => Except.ok (normalizeMsg y :: rs)
              | Except.error m => Except.error m
            else Except.error ("Invalid message at index " ++ toString i)) =
          Except.error ("Invalid message at index " ++ toString (i + (y :: pre).length))
      rw [hy, hrest, ← harith]
      simp
  refine ⟨?_, ?_, ?_, ?_, ?_, by rfl⟩
  · intro v h
    cases v with
    | arr xs => exact absurd rfl (h xs)
    | undef => rfl
    | null => rfl
    | bool b => rfl
    | num raw => rfl
    | str s => rfl
    | obj fields => rfl
  · intro pre x post hpre hx
    have := herr pre 0 x post hpre hx
    simpa [validateMessages] using this
  · intro v h; simp [normalizeMsg, jsOr, h]
  · intro v h; simp [normalizeMsg, jsOr, h]
  · intro v h; simp [normalizeMsg, jsOr, h]

/-- Witness for C5 at concrete inputs: a string result and a null element. -/
theorem claim_validation_normalization_witness :
    validateMessages (JsValue.str "nope") = Except.error "Expected an array of messages"
    ∧ validateMessages (JsValue.arr [JsValue.obj [], JsValue.null]) =
        Except.error "Invalid message at index 1" :=
  ⟨claim_validation_normalization.1 (JsValue.str "nope")
     (fun xs h => JsValue.noConfusion h),
   claim_validation_normalization.2.1 [JsValue.obj []] JsValue.null []
     (by intro y hy; simp at hy; subst hy; rfl) rfl⟩



/-! ## Claim C10 -/

/-- Environment for a model run whose first candidate answers the JSON text
of a one-element array containing an empty array. -/
def envDoubleArr (o2 o3 : ModelOutcome) : Env :=
  ⟨true, true, some ⟨"chat.txt", 10, "hello"⟩, ModelOutcome.success (some "[[]]"),
   o2, o3, none, none, fun k => k⟩

/-- Claim C10: the per-element validation accepts any truthy value of
JavaScript type `object`, arrays included; an array element has none of the
three properties, so every field defaults; and a model response `[[]]`
flows through the whole pipeline into exactly one fully defaulted record. -/
theorem claim_array_elements_accepted :
    (∀ v : JsValue, jsTypeof v = "object" → jsTruthy v = true →
      validateMessages (JsValue.arr [v]) = Except.ok [normalizeMsg v])
    ∧ (∀ xs : List JsValue, validateMessages (JsValue.arr [JsValue.arr xs]) =
        Except.ok [⟨JsValue.str "Unknown", JsValue.str "Unknown", JsValue.str ""⟩])
    ∧ handlePOST (envDoubleArr (ModelOutcome.success none) (ModelOutcome.success none)) =
        (HttpResponse.ok "Successfully processed 1 messages"
           [⟨JsValue.str "Unknown", JsValue.str "Unknown", JsValue.str "", 0⟩] false,
         [Event.readFile, Event.dbCreate, Event.modelAttempt 0,
          Event.sanitizeStage, Event.jsonParseStage, Event.dbInsert]) := by
  refine ⟨?_, ?_, by decide⟩
  · intro v h1 h2
    cases v with
    | undef => simp [jsTypeof] at h1
    | null => simp [jsTruthy] at h2
    | bool b => simp [jsTypeof] at h1
    | num raw => simp [jsTypeof] at h1
    | str s => simp [jsTypeof] at h1
    | arr xs => rfl
    | obj fields => rfl
  · intro xs; rfl

/-- Witness for C10, applying the element-acceptance part at a concrete
truthy object value. -/
theorem claim_array_elements_accepted_witness :
    validateMessages (JsValue.arr [JsValue.arr []]) =
      Except.ok [normalizeMsg (JsValue.arr [])] :=
  claim_array_elements_accepted.1 (JsValue.arr []) rfl rfl

/-! ## Claim C3 -/

/-- The abort error raised when a model attempt times out. -/
def abortErr : JsError := ⟨"AbortError", "The operation was aborted"⟩

/-- A model response that sanitizes to invalid JSON but carries one line
consisting of a quoted sender key/value pair. -/
def garbageB : String := "I could not parse this.\n\"sender\": \"Bob\"\nend"

/-- Environment of the C3 scenario: candidate A times out, candidate B
returns the garbage text, candidate C's behaviour is arbitrary. -/
def envKeyValue (o3 : ModelOutcome) : Env :=
  ⟨true, true, some ⟨"chat.txt", 10, "hello"⟩, ModelOutcome.failure abortErr,
   ModelOutcome.success (some garbageB), o3, none, none, fun k => k⟩

/-- Claim C3: the model loop stops at the first candidate returning
non-empty text (the tail is never consulted and one attempt is counted);
in the concrete scenario the result does not depend on the third candidate
and only two attempts are made; the key/value recovery turns the line containing
only a quoted sender pair into the record with defaulted timestamp and
empty message; and the whole pipeline returns exactly that record when the
sanitized garbage fails JSON parsing. -/
theorem claim_first_text_stops_loop :
    (∀ (s : String) (rest : List ModelOutcome) (rt : Option String) (le : Option JsError),
      s ≠ "" →
      runModelLoop (ModelOutcome.success (some s) :: rest) rt le = (some s, le, 1))
    ∧ (∀ (o3 : ModelOutcome) (rt : Option String) (le : Option JsError),
      runModelLoop
          [ModelOutcome.failure abortErr, ModelOutcome.success (some garbageB), o3] rt le =
        (some garbageB, some abortErr, 2))
    ∧ recoverFromLines garbageB.data = [⟨"Bob", "Unknown", ""⟩]
    ∧ jsonParse (sanitizeResponse garbageB.data) = none
    ∧ (∀ o3 : ModelOutcome, handlePOST (envKeyValue o3) =
        (HttpResponse.ok "Successfully processed 1 messages"
           [⟨JsValue.str "Bob", JsValue.str "Unknown", JsValue.str "", 0⟩] false,
         [Event.readFile, Event.dbCreate, Event.modelAttempt 0, Event.modelAttempt 1,
          Event.sanitizeStage, Event.jsonParseStage, Event.recoverStage, Event.dbInsert])) := by
  refine ⟨?_, fun o3 rt le => rfl, by decide, by decide, ?_⟩
  · intro s rest rt le hs
    simp [runModelLoop, truthyStr, hs]
  intro o3
  have hloop : ∀ (rt : Option String) (le : Option JsError),
      runModelLoop
          [ModelOutcome.failure abortErr, ModelOutcome.success (some garbageB), o3] rt le =
        (some garbageB, some abortErr, 2) := fun rt le => rfl
  have h1 : (envKeyValue o3).openaiKeyConfigured = true := rfl
  have h2 : (envKeyValue o3).mongoUriConfigured = true := rfl
  have h3 : (envKeyValue o3).file = some ⟨"chat.txt", 10, "hello"⟩ := rfl
  have h4 : (envKeyValue o3).createErr = none := rfl
  have h5 : (envKeyValue o3).insertErr = none := rfl
  have h6 : (envKeyValue o3).clock = fun k => k := rfl
  have h7 : modelLoopOf (envKeyValue o3) = (some garbageB, some abortErr, 2) :=
    hloop none none
  unfold handlePOST
  rw [h1, h2, h3, h4, h5, h6, h7]
  decide

/-- Witness for C3, applying the loop part at a concrete third outcome. -/
theorem claim_first_text_stops_loop_witness :
    runModelLoop
        [ModelOutcome.failure abortErr, ModelOutcome.success (some garbageB),
         ModelOutcome.success (some "never consulted")] none none =
      (some garbageB, some abortErr, 2)
    ∧ handlePOST (envKeyValue (ModelOutcome.success (some "never consulted"))) =
      (HttpResponse.ok "Successfully processed 1 messages"
         [⟨JsValue.str "Bob", JsValue.str "Unknown", JsValue.str "", 0⟩] false,
       [Event.readFile, Event.dbCreate, Event.modelAttempt 0, Event.modelAttempt 1,
        Event.sanitizeStage, Event.jsonParseStage, Event.recoverStage, Event.dbInsert]) :=
  ⟨claim_first_text_stops_loop.2.1 _ none none,
   claim_first_text_stops_loop.2.2.2.2 (ModelOutcome.success (some "never consulted"))⟩

/-! ## Claim C8 -/

/-- Claim C8: with the model API key unconfigured (or, with the key set,
the store connection string unconfigured) the endpoint answers 500 with the
configuration error and performs nothing at all: the file is never read and
the manual parser is never run. -/
theorem claim_config_error_before_parsing (env : Env) :
    (env.openaiKeyConfigured = false →
      handlePOST env = (HttpResponse.err 500 "OpenAI API key not configured", [])
      ∧ Event.manualParse ∉ (handlePOST env).2 ∧ Event.readFile ∉ (handlePOST env).2)
    ∧ (env.openaiKeyConfigured = true → env.mongoUriConfigured = false →
      handlePOST env = (HttpResponse.err 500 "Database connection not configured", [])
      ∧ Event.manualParse ∉ (handlePOST env).2 ∧ Event.readFile ∉ (handlePOST env).2) := by
  constructor
  · intro hk
    have h : handlePOST env = (HttpResponse.err 500 "OpenAI API key not configured", []) := by
      simp [handlePOST, hk]
    rw [h]
    simp
  · intro hk hm
    have h : handlePOST env =
        (HttpResponse.err 500 "Database connection not configured", []) := by
      simp [handlePOST, hk, hm]
    rw [h]
    simp

/-- Environment for the C8 witness: a parseable one-line file but no model
key configured. -/
def envNoKey : Env :=
  ⟨false, true, some ⟨"chat.txt", 18, "Alice: Hello there"⟩, ModelOutcome.success none,
   ModelOutcome.success none, ModelOutcome.success none, none, none, fun _ => 0⟩

/-- Witness for C8: uploading `Alice: Hello there` with no key returns the
configuration error and runs nothing. -/
theorem claim_config_error_before_parsing_witness :
    handlePOST envNoKey = (HttpResponse.err 500 "OpenAI API key not configured", [])
    ∧ Event.manualParse ∉ (handlePOST envNoKey).2
    ∧ Event.readFile ∉ (handlePOST envNoKey).2 :=
  (claim_config_error_before_parsing envNoKey).1 rfl

/-! ## Claim C7 -/

/-- A 5MB upload with a non-`.txt` name: both the size check and the
extension check would reject it, so it separates their order. -/
def envOversizePdf : Env :=
  ⟨true, true, some ⟨"a.pdf", 4 * 1024 * 1024 + 1, "x"⟩, ModelOutcome.success none,
   ModelOutcome.success none, ModelOutcome.success none, none, none, fun _ => 0⟩

/-- Counterexample to C7 as stated: the code checks the size ceiling before
the `.txt` extension, so an oversized non-txt upload gets the size error,
not the extension error the claimed order would produce. -/
theorem claim_validation_order_counterexample :
    handlePOST envOversizePdf =
      (HttpResponse.err 400 "File size too large. Maximum size is 4MB.", [])
    ∧ handlePOST envOversizePdf ≠
      (HttpResponse.err 400 "Only .txt files are allowed", []) := by
  refine ⟨by decide, by decide⟩

/-- Claim C7 (amended): the validations run in the order file present, size
within the 4MB byte ceiling, extension `.txt`, content non-empty after
trimming, content length within the 50000-character ceiling, each failing
with a 400 status and its error message. -/
theorem claim_validation_order (env : Env)
    (hk : env.openaiKeyConfigured = true) (hm : env.mongoUriConfigured = true) :
    (env.file = none → handlePOST env = (HttpResponse.err 400 "No file uploaded", []))
    ∧ (∀ f : UploadFile, env.file = some f → 4 * 1024 * 1024 < f.size →
        handlePOST env = (HttpResponse.err 400 "File size too large. Maximum size is 4MB.", []))
    ∧ (∀ f : UploadFile, env.file = some f → f.size ≤ 4 * 1024 * 1024 →
        endsWithTxt f.name = false →
        handlePOST env = (HttpResponse.err 400 "Only .txt files are allowed", []))
    ∧ (∀ f : UploadFile, env.file = some f → f.size ≤ 4 * 1024 * 1024 →
        endsWithTxt f.name = true → jsTrimS f.content = "" →
        handlePOST env = (HttpResponse.err 400 "File is empty", [Event.readFile]))
    ∧ (∀ f : UploadFile, env.file = some f → f.size ≤ 4 * 1024 * 1024 →
        endsWithTxt f.name = true → ¬ jsTrimS f.content = "" →
        50000 < utf16Length f.content →
        handlePOST env =
          (HttpResponse.err 400 "File content too large. Please use a smaller file (max 50KB).",
           [Event.readFile])) := by
  refine ⟨?_, ?_, ?_, ?_, ?_⟩
  · intro hf
    simp [handlePOST, hk, hm, hf]
  · intro f hf hsize
    simp [handlePOST, hk, hm, hf, hsize]
  · intro f hf hsize hname
    have hsize' : ¬ 4 * 1024 * 1024 < f.size := not_lt.mpr hsize
    simp [handlePOST, hk, hm, hf, hsize', hname]
  · intro f hf hsize hname hempty
    have hsize' : ¬ 4 * 1024 * 1024 < f.size := not_lt.mpr hsize
    simp [handlePOST, hk, hm, hf, hsize', hname, hempty]
  · intro f hf hsize hname hne hlen
    have hsize' : ¬ 4 * 1024 * 1024 < f.size := not_lt.mpr hsize
    simp [handlePOST, hk, hm, hf, hsize', hname, hne, hlen]

/-- Witness for C7 (amended) at concrete rejected uploads. -/
theorem claim_validation_order_witness :
    handlePOST ⟨true, true, none, ModelOutcome.success none, ModelOutcome.success none,
        ModelOutcome.success none, none, none, fun _ => 0⟩ =
      (HttpResponse.err 400 "No file uploaded", [])
    ∧ handlePOST ⟨true, true, some ⟨"a.txt", 1, "   "⟩, ModelOutcome.success none,
        ModelOutcome.success none, ModelOutcome.success none, none, none, fun _ => 0⟩ =
      (HttpResponse.err 400 "File is empty", [Event.readFile]) :=
  ⟨(claim_validation_order _ rfl rfl).1 rfl,
   (claim_validation_order _ rfl rfl).2.2.2.1 ⟨"a.txt", 1, "   "⟩ rfl (by decide) (by decide)
     (by decide)⟩

/-! ## Claim C1 -/

/-- Claim C1: when no model candidate returns text and the manual parser
finds at least one record in the raw file text, the endpoint answers
success with exactly the manual parser's records (in line order, stamped at
insertion) and the fallback indicator, and the sanitization and JSON-parse
stages never run. -/
theorem claim_fallback_short_circuit (env : Env) (f : UploadFile)
    (hk : env.openaiKeyConfigured = true) (hm : env.mongoUriConfigured = true)
    (hf : env.file = some f)
    (hsize : f.size ≤ 4 * 1024 * 1024) (hname : endsWithTxt f.name = true)
    (hne : ¬ jsTrimS f.content = "") (hlen : utf16Length f.content ≤ 50000)
    (hdb : env.createErr = none) (hins : env.insertErr = none)
    (hnotext : truthyStr (modelLoopOf env).1 = false)
    (hfb : parseChatManually f.content ≠ []) :
    handlePOST env =
      (HttpResponse.ok
        ("Successfully processed " ++
          toString (insertChatMessages env.clock
            ((parseChatManually f.content).map mrecordToV)).length ++
          " messages using fallback parsing")
        (insertChatMessages env.clock ((parseChatManually f.content).map mrecordToV)) true,
       Event.readFile :: Event.dbCreate ::
         (attemptEvents (modelLoopOf env).2.2 ++ [Event.manualParse, Event.dbInsert]))
    ∧ Event.sanitizeStage ∉ (handlePOST env).2
    ∧ Event.jsonParseStage ∉ (handlePOST env).2 := by
  have hsize' : ¬ 4 * 1024 * 1024 < f.size := not_lt.mpr hsize
  have hlen' : ¬ 50000 < utf16Length f.content := not_lt.mpr hlen
  have hfb' : 0 < (parseChatManually f.content).length := List.length_pos.mpr hfb
  have h : handlePOST env =
      (HttpResponse.ok
        ("Successfully processed " ++
          toString (insertChatMessages env.clock
            ((parseChatManually f.content).map mrecordToV)).length ++
          " messages using fallback parsing")
        (insertChatMessages env.clock ((parseChatManually f.content).map mrecordToV)) true,
       Event.readFile :: Event.dbCreate ::
         (attemptEvents (modelLoopOf env).2.2 ++ [Event.manualParse, Event.dbInsert])) := by
    simp [handlePOST, hk, hm, hf, hsize', hname, hne, hlen', hdb, hins, hnotext, hfb']
  refine ⟨h, ?_, ?_⟩ <;> rw [h] <;> simp [attemptEvents]

/-- Environment for the C1 witness: a one-line parseable file, one model
erroring and two returning no content. -/
def envManualFallback : Env :=
  ⟨true, true, some ⟨"chat.txt", 18, "Alice: Hello there"⟩, ModelOutcome.failure ⟨"Error", "boom"⟩,
   ModelOutcome.success none, ModelOutcome.success (some ""), none, none, fun k => k⟩

/-- Witness for C1 at the concrete environment. -/
theorem claim_fallback_short_circuit_witness :
    handlePOST envManualFallback =
      (HttpResponse.ok
        ("Successfully processed " ++
          toString (insertChatMessages envManualFallback.clock
            ((parseChatManually "Alice: Hello there").map mrecordToV)).length ++
          " messages using fallback parsing")
        (insertChatMessages envManualFallback.clock
          ((parseChatManually "Alice: Hello there").map mrecordToV)) true,
       Event.readFile :: Event.dbCreate ::
         (attemptEvents (modelLoopOf envManualFallback).2.2 ++
           [Event.manualParse, Event.dbInsert]))
    ∧ Event.sanitizeStage ∉ (handlePOST envManualFallback).2
    ∧ Event.jsonParseStage ∉ (handlePOST envManualFallback).2 :=
  claim_fallback_short_circuit envManualFallback ⟨"chat.txt", 18, "Alice: Hello there"⟩
    rfl rfl rfl (by decide) (by decide) (by decide) (by decide) rfl rfl (by decide) (by decide)

/-! ## Claim C2 -/

/-- Claim C2: when no model candidate returns text and the manual parser
finds nothing, the request fails with the timeout message if the last
recorded model error was an abort, and otherwise with the generic message
embedding the last error's text. -/
theorem claim_all_models_failed_errors (env : Env) (f : UploadFile)
    (hk : env.openaiKeyConfigured = true) (hm : env.mongoUriConfigured = true)
    (hf : env.file = some f)
    (hsize : f.size ≤ 4 * 1024 * 1024) (hname : endsWithTxt f.name = true)
    (hne : ¬ jsTrimS f.content = "") (hlen : utf16Length f.content ≤ 50000)
    (hdb : env.createErr = none)
    (hnotext : truthyStr (modelLoopOf env).1 = false)
    (hfb0 : parseChatManually f.content = []) :
    (∀ e : JsError, (modelLoopOf env).2.1 = some e → e.name = "AbortError" →
      handlePOST env =
        (HttpResponse.err 500
          "Request timeout - file processing took too long. Please try with a smaller file.",
         Event.readFile :: Event.dbCreate ::
           (attemptEvents (modelLoopOf env).2.2 ++ [Event.manualParse])))
    ∧ (∀ e : JsError, (modelLoopOf env).2.1 = some e → e.name ≠ "AbortError" →
      handlePOST env =
        (HttpResponse.err 500 ("All models failed. Last error: " ++ e.message),
         Event.readFile :: Event.dbCreate ::
           (attemptEvents (modelLoopOf env).2.2 ++ [Event.manualParse]))) := by
  have hsize' : ¬ 4 * 1024 * 1024 < f.size := not_lt.mpr hsize
  have hlen' : ¬ 50000 < utf16Length f.content := not_lt.mpr hlen
  have h : handlePOST env =
      (allModelsFailed (modelLoopOf env).2.1,
       Event.readFile :: Event.dbCreate ::
         (attemptEvents (modelLoopOf env).2.2 ++ [Event.manualParse])) := by
    simp [handlePOST, hk, hm, hf, hsize', hname, hne, hlen', hdb, hnotext, hfb0]
  constructor
  · intro e hle habort
    rw [h, hle]
    simp [allModelsFailed, habort]
  · intro e hle habort
    rw [h, hle]
    simp [allModelsFailed, habort]

/-- Environments for the C2 witness: every candidate fails, the file parses
to no records; once with an abort as the last error, once with a generic
error last. -/
def envAllFailAbort : Env :=
  ⟨true, true, some ⟨"chat.txt", 11, "nocolonhere"⟩, ModelOutcome.failure ⟨"Error", "boom"⟩,
   ModelOutcome.failure ⟨"Error", "boom"⟩, ModelOutcome.failure abortErr, none, none, fun _ => 0⟩

/-- As `envAllFailAbort` but with a generic error last. -/
def envAllFailGeneric : Env :=
  ⟨true, true, some ⟨"chat.txt", 11, "nocolonhere"⟩, ModelOutcome.failure abortErr,
   ModelOutcome.failure abortErr, ModelOutcome.failure ⟨"Error", "boom"⟩, none, none, fun _ => 0⟩

/-- Witness for C2 at the two concrete environments. -/
theorem claim_all_models_failed_errors_witness :
    handlePOST envAllFailAbort =
      (HttpResponse.err 500
        "Request timeout - file processing took too long. Please try with a smaller file.",
       Event.readFile :: Event.dbCreate ::
         (attemptEvents (modelLoopOf envAllFailAbort).2.2 ++ [Event.manualParse]))
    ∧ handlePOST envAllFailGeneric =
      (HttpResponse.err 500 ("All models failed. Last error: " ++ "boom"),
       Event.readFile :: Event.dbCreate ::
         (attemptEvents (modelLoopOf envAllFailGeneric).2.2 ++ [Event.manualParse])) :=
  ⟨(claim_all_models_failed_errors envAllFailAbort ⟨"chat.txt", 11, "nocolonhere"⟩
      rfl rfl rfl (by decide) (by decide) (by decide) (by decide) rfl (by decide)
      (by decide)).1 abortErr (by decide) rfl,
   (claim_all_models_failed_errors envAllFailGeneric ⟨"chat.txt", 11, "nocolonhere"⟩
      rfl rfl rfl (by decide) (by decide) (by decide) (by decide) rfl (by decide)
      (by decide)).2 ⟨"Error", "boom"⟩ (by decide) (by decide)⟩

/-! ## Claim C6 -/

/-- `dropWhile` keeps a list whose head fails the predicate. -/
theorem dropWhile_cons_of_neg {p : Char → Bool} {a : Char} {l : List Char}
    (h : p a = false) : (a :: l).dropWhile p = a :: l := by
  simp [List.dropWhile_cons, h]

/-- `takeWhile` stops at a head failing the predicate. -/
theorem takeWhile_cons_of_neg {p : Char → Bool} {a : Char} {l : List Char}
    (h : p a = false) : (a :: l).takeWhile p = [] := by
  simp [List.takeWhile_cons, h]

/-- `dropTrailingWs` keeps a list ending in a non-whitespace character. -/
theorem dropTrailingWs_concat (l : List Char) (c : Char) (h : isJsWs c = false) :
    dropTrailingWs (l ++ [c]) = l ++ [c] := by
  unfold dropTrailingWs
  rw [show (l ++ [c]).reverse = c :: l.reverse from by simp]
  rw [dropWhile_cons_of_neg h]
  simp

/-- Trimming fixes a bracket-delimited text. -/
theorem jsTrim_bracket (mid : List Char) :
    jsTrim ('[' :: (mid ++ [']'])) = '[' :: (mid ++ [']']) := by
  unfold jsTrim
  rw [dropWhile_cons_of_neg (by decide)]
  rw [← List.cons_append]
  exact dropTrailingWs_concat _ _ (by decide)

/-- The greedy bracket-span regex returns a bracket-delimited text whole. -/
theorem bracketSpan_bracket (mid : List Char) :
    bracketSpan ('[' :: (mid ++ [']'])) = some ('[' :: (mid ++ [']'])) := by
  unfold bracketSpan
  have htake : (('[' :: (mid ++ [']'])).takeWhile (fun c => !(c == '['))) = [] :=
    takeWhile_cons_of_neg (by decide)
  have hrev : ('[' :: (mid ++ [']'])).reverse = ']' :: ('[' :: mid).reverse := by
    rw [← List.cons_append]
    simp
  have htake2 : (('[' :: (mid ++ [']'])).reverse.takeWhile (fun c => !(c == ']'))) = [] := by
    rw [hrev]
    exact takeWhile_cons_of_neg (by decide)
  have hlen : ('[' :: (mid ++ [']'])).length = mid.length + 2 := by simp
  rw [htake, htake2, hlen]
  simp only [List.length_nil]
  rw [if_neg (by omega), if_neg (by omega), if_pos (by omega)]
  rw [List.drop_zero]
  have harith : mid.length + 2 - 1 - 0 - 0 + 1 = ('[' :: (mid ++ [']'])).length := by
    rw [hlen]
    omega
  rw [harith, List.take_length]

/-- The sanitizer fixes any bracket-delimited text. -/
theorem sanitize_fixes (mid : List Char) :
    sanitizeResponse ('[' :: (mid ++ [']'])) = '[' :: (mid ++ [']']) := by
  have e0 := jsTrim_bracket mid
  have ef7 : (['`', '`', '`', 'j', 's', 'o', 'n'] : List Char).isPrefixOf
      ('[' :: (mid ++ [']'])) = false := rfl
  have ef3 : (['`', '`', '`'] : List Char).isPrefixOf ('[' :: (mid ++ [']'])) = false := rfl
  have ebs := bracketSpan_bracket mid
  have elead : ('[' :: (mid ++ [']'])).dropWhile (fun c => !(c == '{') && !(c == '[')) =
      '[' :: (mid ++ [']']) := dropWhile_cons_of_neg (by decide)
  have etrail : (('[' :: (mid ++ [']'])).reverse.dropWhile
      (fun c => !(c == '}') && !(c == ']'))).reverse = '[' :: (mid ++ [']']) := by
    rw [show ('[' :: (mid ++ [']'])).reverse = ']' :: ('[' :: mid).reverse from by
      rw [← List.cons_append]; simp]
    rw [dropWhile_cons_of_neg (by decide)]
    rw [List.reverse_cons, List.reverse_reverse, List.cons_append]
  simp only [sanitizeResponse, e0, ef7, ef3, Bool.false_eq_true, if_false, ebs,
    elead, etrail]

/-- Claim C6: on input already in bracket-only JSON form (first character
`[`, last character `]`), the sanitizer is the identity, hence applying it
twice equals applying it once. -/
theorem claim_sanitizer_idempotent (s : List Char)
    (h1 : s.head? = some '[') (h2 : s.getLast? = some ']') :
    sanitizeResponse s = s ∧ sanitizeResponse (sanitizeResponse s) = sanitizeResponse s := by
  obtain ⟨mid, rfl⟩ : ∃ mid, s = '[' :: (mid ++ [']']) := by
    cases s with
    | nil => simp at h1
    | cons a t =>
      have ha : a = '[' := by simpa using h1
      subst ha
      obtain ⟨m, hm⟩ := exists_concat_of_getLast? _ _ h2
      cases m with
      | nil =>
        rw [List.nil_append] at hm
        have hcontr : '[' = ']' := List.head_eq_of_cons_eq hm
        exact absurd hcontr (by decide)
      | cons b m2 =>
        rw [List.cons_append] at hm
        have ht : t = m2 ++ [']'] := List.tail_eq_of_cons_eq hm
        exact ⟨m2, by rw [ht]⟩
  refine ⟨sanitize_fixes mid, ?_⟩
  rw [sanitize_fixes mid, sanitize_fixes mid]

/-- Witness for C6 at a concrete bracket-only input. -/
theorem claim_sanitizer_idempotent_witness :
    sanitizeResponse "[1, 2]".data = "[1, 2]".data
    ∧ sanitizeResponse (sanitizeResponse "[1, 2]".data) = sanitizeResponse "[1, 2]".data :=
  claim_sanitizer_idempotent "[1, 2]".data (by decide) (by decide)

/-! ## Claim C9 -/

/-- The all-models-failed error is never a success response. -/
theorem allModelsFailed_ne_ok (le : Option JsError) (m : String)
    (d : List PersistedRecord) (f : Bool) :
    allModelsFailed le ≠ HttpResponse.ok m d f := by
  intro h
  cases le with
  | none => simp [allModelsFailed] at h
  | some e =>
    simp only [allModelsFailed] at h
    split at h <;> exact HttpResponse.noConfusion h

/-- Every record accepted by the validation has defined fields. -/
theorem validateMessages_defined (parsed : JsValue) (vrecs : List VRecord)
    (h : validateMessages parsed = Except.ok vrecs) :
    ∀ r ∈ vrecs, r.sender ≠ JsValue.undef ∧ r.timestamp ≠ JsValue.undef ∧
      r.message ≠ JsValue.undef := by
  cases parsed with
  | arr xs =>
    exact validateElems_defined xs 0 vrecs h
  | undef => exact absurd h (by simp [validateMessages])
  | null => exact absurd h (by simp [validateMessages])
  | bool b => exact absurd h (by simp [validateMessages])
  | num raw => exact absurd h (by simp [validateMessages])
  | str s => exact absurd h (by simp [validateMessages])
  | obj fields => exact absurd h (by simp [validateMessages])

/-- Claim C9: every successfully persisted batch has all of sender,
timestamp and message defined on every record; the creation stamp of the
k-th record is the store clock at tick k (assigned at insert, not taken
from extraction); and with a non-decreasing clock the stamps are
non-decreasing in batch order. -/
theorem claim_persisted_record_invariants (env : Env) (m : String)
    (data : List PersistedRecord) (fb : Bool) (ev : List Event)
    (h : handlePOST env = (HttpResponse.ok m data fb, ev)) :
    (∀ r ∈ data, r.sender ≠ JsValue.undef ∧ r.timestamp ≠ JsValue.undef ∧
      r.message ≠ JsValue.undef)
    ∧ (∀ i : Nat, ∀ hi : i < data.length, (data.get ⟨i, hi⟩).created_at = env.clock i)
    ∧ ((∀ i j : Nat, i ≤ j → env.clock i ≤ env.clock j) →
       ∀ i j : Nat, ∀ hi : i < data.length, ∀ hj : j < data.length, i ≤ j →
         (data.get ⟨i, hi⟩).created_at ≤ (data.get ⟨j, hj⟩).created_at) := by
  have hok_ne : ∀ (st : Nat) (msg : String) (evs : List Event),
      handlePOST env = (HttpResponse.err st msg, evs) → False := by
    intro st msg evs he
    rw [he] at h
    have := congrArg Prod.fst h
    exact HttpResponse.noConfusion this
  have key : ∃ vrecs : List VRecord, data = insertChatMessages env.clock vrecs ∧
      ∀ v ∈ vrecs, v.sender ≠ JsValue.undef ∧ v.timestamp ≠ JsValue.undef ∧
        v.message ≠ JsValue.undef := by
    have hmanual_def : ∀ content : String,
        ∀ v ∈ (parseChatManually content).map mrecordToV,
          v.sender ≠ JsValue.undef ∧ v.timestamp ≠ JsValue.undef ∧
            v.message ≠ JsValue.undef := by
      intro content v hv
      obtain ⟨r, hr, rfl⟩ := List.mem_map.mp hv
      exact ⟨fun hh => JsValue.noConfusion hh, fun hh => JsValue.noConfusion hh,
        fun hh => JsValue.noConfusion hh⟩
    cases hk : env.openaiKeyConfigured with
    | false => simp [handlePOST, hk] at h
    | true =>
    cases hm2 : env.mongoUriConfigured with
    | false => simp [handlePOST, hk, hm2] at h
    | true =>
    cases hf : env.file with
    | none => simp [handlePOST, hk, hm2, hf] at h
    | some file =>
    by_cases hsize : 4 * 1024 * 1024 < file.size
    · simp [handlePOST, hk, hm2, hf, hsize] at h
    cases hname : endsWithTxt file.name with
    | false => simp [handlePOST, hk, hm2, hf, hsize, hname] at h
    | true =>
    by_cases hempty : jsTrimS file.content = ""
    · simp [handlePOST, hk, hm2, hf, hsize, hname, hempty] at h
    by_cases hlen : 50000 < utf16Length file.content
    · simp [handlePOST, hk, hm2, hf, hsize, hname, hempty, hlen] at h
    cases hdb : env.createErr with
    | some e => simp [handlePOST, hk, hm2, hf, hsize, hname, hempty, hlen, hdb] at h
    | none =>
    cases htext : truthyStr (modelLoopOf env).1 with
    | false =>
      by_cases hfb : 0 < (parseChatManually file.content).length
      · cases hins : env.insertErr with
        | some e =>
          have he : handlePOST env =
              (allModelsFailed (modelLoopOf env).2.1,
               Event.readFile :: Event.dbCreate :: attemptEvents (modelLoopOf env).2.2 ++
                 [Event.manualParse, Event.dbInsert]) := by
            simp [handlePOST, hk, hm2, hf, hsize, hname, hempty, hlen, hdb, htext, hfb, hins]
          rw [he] at h
          exact absurd (congrArg Prod.fst h) (allModelsFailed_ne_ok _ _ _ _)
        | none =>
          have he : handlePOST env =
              (HttpResponse.ok
                ("Successfully processed " ++
                  toString (insertChatMessages env.clock
                    ((parseChatManually file.content).map mrecordToV)).length ++
                  " messages using fallback parsing")
                (insertChatMessages env.clock ((parseChatManually file.content).map mrecordToV))
                true,
               Event.readFile :: Event.dbCreate :: attemptEvents (modelLoopOf env).2.2 ++
                 [Event.manualParse, Event.dbInsert]) := by
            simp [handlePOST, hk, hm2, hf, hsize, hname, hempty, hlen, hdb, htext, hfb, hins]
          rw [he] at h
          injection h with hfst hsnd
          injection hfst with hmsg hdata2 hfb2
          exact ⟨(parseChatManually file.content).map mrecordToV, hdata2.symm,
            hmanual_def file.content⟩
      · have he : handlePOST env =
            (allModelsFailed (modelLoopOf env).2.1,
             Event.readFile :: Event.dbCreate :: attemptEvents (modelLoopOf env).2.2 ++
               [Event.manualParse]) := by
          simp [handlePOST, hk, hm2, hf, hsize, hname, hempty, hlen, hdb, htext, hfb]
        rw [he] at h
        exact absurd (congrArg Prod.fst h) (allModelsFailed_ne_ok _ _ _ _)
    | true =>
      cases hjson : jsonParse (sanitizeResponse (optText (modelLoopOf env).1).data) with
      | some parsed =>
        cases hval : validateMessages parsed with
        | error msg2 =>
          simp [handlePOST, hk, hm2, hf, hsize, hname, hempty, hlen, hdb, htext,
            hjson, finishValidated, hval] at h
        | ok vrecs =>
          cases hins : env.insertErr with
          | some e =>
            simp [handlePOST, hk, hm2, hf, hsize, hname, hempty, hlen, hdb, htext,
              hjson, finishValidated, hval, hins] at h
          | none =>
            have he : handlePOST env =
                (HttpResponse.ok
                  ("Successfully processed " ++
                    toString (insertChatMessages env.clock vrecs).length ++ " messages")
                  (insertChatMessages env.clock vrecs) false,
                 Event.readFile :: Event.dbCreate :: attemptEvents (modelLoopOf env).2.2 ++
                   [Event.sanitizeStage, Event.jsonParseStage, Event.dbInsert]) := by
              simp [handlePOST, hk, hm2, hf, hsize, hname, hempty, hlen, hdb, htext,
                hjson, finishValidated, hval, hins]
            rw [he] at h
            injection h with hfst hsnd
            injection hfst with hmsg hdata2 hfb2
            exact ⟨vrecs, hdata2.symm, validateMessages_defined parsed vrecs hval⟩
      | none =>
        by_cases hrec : 0 < (recoverFromLines (optText (modelLoopOf env).1).data).length
        · cases hval : validateMessages
              (JsValue.arr ((recoverFromLines (optText (modelLoopOf env).1).data).map
                mrecordToJs)) with
          | error msg2 =>
            simp [handlePOST, hk, hm2, hf, hsize, hname, hempty, hlen, hdb, htext,
              hjson, hrec, finishValidated, hval] at h
          | ok vrecs =>
            cases hins : env.insertErr with
            | some e =>
              simp [handlePOST, hk, hm2, hf, hsize, hname, hempty, hlen, hdb, htext,
                hjson, hrec, finishValidated, hval, hins] at h
            | none =>
              have he : handlePOST env =
                  (HttpResponse.ok
                    ("Successfully processed " ++
                      toString (insertChatMessages env.clock vrecs).length ++ " messages")
                    (insertChatMessages env.clock vrecs) false,
                   Event.readFile :: Event.dbCreate :: attemptEvents (modelLoopOf env).2.2 ++
                     [Event.sanitizeStage, Event.jsonParseStage, Event.recoverStage,
                      Event.dbInsert]) := by
                simp [handlePOST, hk, hm2, hf, hsize, hname, hempty, hlen, hdb, htext,
                  hjson, hrec, finishValidated, hval, hins]
              rw [he] at h
              injection h with hfst hsnd
              injection hfst with hmsg hdata2 hfb2
              exact ⟨vrecs, hdata2.symm, validateMessages_defined _ vrecs hval⟩
        · simp [handlePOST, hk, hm2, hf, hsize, hname, hempty, hlen, hdb, htext,
            hjson, hrec] at h
  obtain ⟨vrecs, hdata, hdef⟩ := key
  have hlen2 : data.length = vrecs.length := by
    rw [hdata]
    exact stampFrom_length env.clock vrecs 0
  have hget : ∀ i : Nat, ∀ hi : i < data.length,
      (data.get ⟨i, hi⟩).created_at = env.clock i := by
    intro i hi
    have hi2 : i < vrecs.length := hlen2 ▸ hi
    have h1 : data[i]? = some (data.get ⟨i, hi⟩) := by
      rw [List.getElem?_eq_getElem hi]
      simp
    have h2 : data[i]? = (vrecs[i]?).map
        (fun mm => ⟨mm.sender, mm.timestamp, mm.message, env.clock (0 + i)⟩) := by
      rw [hdata]
      exact stampFrom_getElem? env.clock vrecs 0 i
    have h3 : vrecs[i]? = some (vrecs.get ⟨i, hi2⟩) := by
      rw [List.getElem?_eq_getElem hi2]
      simp
    rw [h1, h3] at h2
    simp only [Option.map_some'] at h2
    injection h2 with h4
    rw [h4]
    simp
  refine ⟨?_, hget, ?_⟩
  · intro r hr
    rw [hdata] at hr
    obtain ⟨mrec, hm2, hs, ht2, hmsg⟩ := stampFrom_mem env.clock vrecs 0 r hr
    rw [hs, ht2, hmsg]
    exact hdef mrec hm2
  · intro hmono i j hi hj hij
    rw [hget i hi, hget j hj]
    exact hmono i j hij

/-- Witness for C9 at a concrete successful fallback upload. -/
theorem claim_persisted_record_invariants_witness :
    (∀ r ∈ ([⟨JsValue.str "Alice", JsValue.str "Unknown", JsValue.str "Hello there", 0⟩] :
        List PersistedRecord), r.sender ≠ JsValue.undef ∧ r.timestamp ≠ JsValue.undef ∧
        r.message ≠ JsValue.undef)
    ∧ (∀ i : Nat,
        ∀ hi : i < ([⟨JsValue.str "Alice", JsValue.str "Unknown", JsValue.str "Hello there", 0⟩] :
          List PersistedRecord).length,
        (([⟨JsValue.str "Alice", JsValue.str "Unknown", JsValue.str "Hello there", 0⟩] :
          List PersistedRecord).get ⟨i, hi⟩).created_at = envManualFallback.clock i)
    ∧ ((∀ i j : Nat, i ≤ j → envManualFallback.clock i ≤ envManualFallback.clock j) →
       ∀ i j : Nat,
       ∀ hi : i < ([⟨JsValue.str "Alice", JsValue.str "Unknown", JsValue.str "Hello there", 0⟩] :
          List PersistedRecord).length,
       ∀ hj : j < ([⟨JsValue.str "Alice", JsValue.str "Unknown", JsValue.str "Hello there", 0⟩] :
          List PersistedRecord).length, i ≤ j →
         (([⟨JsValue.str "Alice", JsValue.str "Unknown", JsValue.str "Hello there", 0⟩] :
            List PersistedRecord).get ⟨i, hi⟩).created_at ≤
           (([⟨JsValue.str "Alice", JsValue.str "Unknown", JsValue.str "Hello there", 0⟩] :
            List PersistedRecord).get ⟨j, hj⟩).created_at) :=
  claim_persisted_record_invariants envManualFallback
    "Successfully processed 1 messages using fallback parsing"
    [⟨JsValue.str "Alice", JsValue.str "Unknown", JsValue.str "Hello there", 0⟩] true
    [Event.readFile, Event.dbCreate, Event.modelAttempt 0, Event.modelAttempt 1,
     Event.modelAttempt 2, Event.manualParse, Event.dbInsert]
    (by decide)
